import Mathlib

/-!
Verification development for the `epg` repository: a television program-guide
(EPG) aggregation pipeline.  The Python sources are shallowly embedded:

* `src/epg/models.py` — pydantic models `Channel`, `Programme`, `Data`;
  pydantic validates only presence (and string type) of fields, so the
  constructors are embedded as functions from optional field values to
  `Except PyErr _`, reporting the missing field names.
* `src/epg/tvmao/main.py` — the rendered-page scraper: the list-item text
  extraction of `scrape` and the interval stitching loop of `get_epg_data`.
* `src/epg/erw-api/main.py` — the bounded-interval API adapter `get_data`,
  with the upstream response abstracted as a function from channel name to
  an `ErwResponse` (transport failure / JSON without the `epg_data` key /
  payload with items).
* `src/epg/common.py` — the serializer `save_epg_file`: ElementTree
  emission, re-parse by minidom, pretty printing, and the write to the
  fixed path `e.xml`.

Strings are manipulated as `List Char` where character-level reasoning is
needed; `String` wrappers keep the statements close to the Python values.
-/

/-- Error raised by the embedded Python code: either a pydantic
`ValidationError` carrying the names of the missing required fields, or a
`KeyError` from indexing a dict with an absent key. -/
inductive PyErr
  | validationError (missing : List String)
  | keyError (key : String)
  deriving DecidableEq, Repr

/-- Model of `epg.models.Channel`: fields `id` and `display_name`. -/
structure Channel where
  id : String
  display_name : String
  deriving DecidableEq, Repr

/-- Model of `epg.models.Programme`: fields `channel`, `start`, `stop`,
`title`, all plain strings with no validators. -/
structure Programme where
  channel : String
  start : String
  stop : String
  title : String
  deriving DecidableEq, Repr

/-- Model of `epg.models.Data`: `info_name` and `info_url` default to fixed
strings, `data_from` is required, `channels` and `programmes` default to
empty lists. -/
structure Data where
  info_name : String
  info_url : String
  data_from : String
  channels : List Channel
  programmes : List Programme
  deriving DecidableEq, Repr

/-- Names of the arguments absent from a constructor call: pydantic reports
every missing required field in its `ValidationError`. -/
def missingOf (present : List (String × Bool)) : List String :=
  (present.filter (fun p => !p.2)).map (fun p => p.1)

/-- Pydantic construction of `Programme`: all four fields are required; a
call with every field supplied always succeeds (no interval, title or
referential checks exist in `models.py`), a call with fields absent raises
`ValidationError` naming them. -/
def mkProgramme (channel start stop title : Option String) : Except PyErr Programme :=
  match channel, start, stop, title with
  | some c, some s, some st, some t => .ok ⟨c, s, st, t⟩
  | _, _, _, _ =>
    .error (.validationError (missingOf
      [("channel", channel.isSome), ("start", start.isSome),
       ("stop", stop.isSome), ("title", title.isSome)]))

/-- Pydantic construction of `Data`: `data_from` is the only required field
(`info_name`, `info_url`, `channels`, `programmes` have defaults). -/
def mkData (data_from : Option String)
    (channels : List Channel := []) (programmes : List Programme := []) :
    Except PyErr Data :=
  match data_from with
  | some df => .ok ⟨"by oaixnah", "https://tv.oaix.tech/e.xml", df, channels, programmes⟩
  | none => .error (.validationError ["data_from"])

/-- Python `s.replace(":", "")`: removes every colon (single-character
pattern, so equal to filtering the colons out). -/
def dropColons (s : String) : String :=
  ⟨s.data.filter (fun c => c ≠ ':')⟩

/-- Timestamp string built by both adapters:
`f"(date_str)(time.replace(':',''))00 +0800"`. -/
def mkTime (date_str time : String) : String :=
  date_str ++ dropColons time ++ "00 +0800"

/-- Raw (time, title) entry scraped from a rendered page, the dicts that
`scrape` returns in `items`. -/
structure RawItem where
  time : String
  title : String
  deriving DecidableEq, Repr

/-- Placeholder programme for out-of-range `getD` indexing (never hit at
in-range indices). -/
def dummyProg : Programme := ⟨"", "", "", ""⟩

/-- Placeholder raw entry for out-of-range `getD` indexing. -/
def dummyRaw : RawItem := ⟨"", ""⟩

/-- The stitching loop of `tvmao.main.get_epg_data` (lines 221–238): for
`index, epg_item in enumerate(epg_data)`, start is the date plus the
entry's time, stop is `date_str + "235959 +0800"` for the last index and
the next entry's start time otherwise. -/
def stitch (channel_name date_str : String) (epg_data : List RawItem) : List Programme :=
  (List.range epg_data.length).map (fun index =>
    { channel := channel_name
      start := mkTime date_str (epg_data.getD index dummyRaw).time
      stop :=
        if index + 1 = epg_data.length then date_str ++ "235959 +0800"
        else mkTime date_str (epg_data.getD (index + 1) dummyRaw).time
      title := (epg_data.getD index dummyRaw).title })

/-- Concrete check of the stitching loop on the spec §8 example. -/
theorem stitch_spec_example :
    stitch "CCTV1" "20260301" [⟨"06:00", "新闻"⟩, ⟨"07:30", "天气"⟩] =
    [⟨"CCTV1", "20260301060000 +0800", "20260301073000 +0800", "新闻"⟩,
     ⟨"CCTV1", "20260301073000 +0800", "20260301235959 +0800", "天气"⟩] := by
  decide

/-- Specification-side description of the Interval Stitcher (spec §4.2 /
§8, and claim C1), written from the spec's words: exactly N programmes,
programme `i` starts at the reference date plus entry `i`'s time-of-day
with the +0800 offset, each stop equals the next start, and the last stop
is the reference date at 23:59:59 +0800. -/
def stitchSpecOk (channel_name date_str : String) (entries : List RawItem)
    (ps : List Programme) : Prop :=
  ps.length = entries.length ∧
  (∀ i, i < ps.length → (ps.getD i dummyProg).channel = channel_name) ∧
  (∀ i, i < ps.length →
    (ps.getD i dummyProg).start = mkTime date_str (entries.getD i dummyRaw).time) ∧
  (∀ i, i + 1 < ps.length →
    (ps.getD i dummyProg).stop = (ps.getD (i + 1) dummyProg).start) ∧
  (ps ≠ [] → (ps.getD (ps.length - 1) dummyProg).stop = date_str ++ "235959 +0800")

/-- Indexing the stitched list hits the loop-body formula. -/
theorem stitch_getD (channel_name date_str : String) (epg_data : List RawItem)
    (i : Nat) (h : i < epg_data.length) :
    (stitch channel_name date_str epg_data).getD i dummyProg =
      { channel := channel_name
        start := mkTime date_str (epg_data.getD i dummyRaw).time
        stop :=
          if i + 1 = epg_data.length then date_str ++ "235959 +0800"
          else mkTime date_str (epg_data.getD (i + 1) dummyRaw).time
        title := (epg_data.getD i dummyRaw).title } := by
  simp [stitch, List.getD_eq_getElem?_getD, List.getElem?_map, List.getElem?_range, h]

/-- The stitched list has one programme per raw entry. -/
theorem stitch_length (channel_name date_str : String) (epg_data : List RawItem) :
    (stitch channel_name date_str epg_data).length = epg_data.length := by
  simp [stitch]

/-- Claim C1: for every channel and every non-empty ordered raw entry list,
the stitching loop of `tvmao.main.get_epg_data` produces exactly N
programmes whose starts are date + time-of-day + "+0800", whose stops chain
to the next start, and whose final stop is the 23:59:59 end-of-day
sentinel. -/
theorem stitch_matches_interval_spec (channel_name date_str : String)
    (entries : List RawItem) (h : entries ≠ []) :
    stitchSpecOk channel_name date_str entries (stitch channel_name date_str entries) := by
  have hlen := stitch_length channel_name date_str entries
  refine ⟨hlen, ?_, ?_, ?_, ?_⟩
  · intro i hi
    rw [hlen] at hi
    rw [stitch_getD channel_name date_str entries i hi]
  · intro i hi
    rw [hlen] at hi
    rw [stitch_getD channel_name date_str entries i hi]
  · intro i hi
    rw [hlen] at hi
    have hi' : i < entries.length := Nat.lt_of_succ_lt hi
    rw [stitch_getD channel_name date_str entries i hi',
        stitch_getD channel_name date_str entries (i + 1) hi]
    simp [Nat.ne_of_lt hi]
  · intro _
    have hpos : 0 < entries.length := by
      cases entries with
      | nil => exact absurd rfl h
      | cons a l => simp
    have hlt : entries.length - 1 < entries.length := Nat.sub_lt hpos (by omega)
    rw [hlen, stitch_getD channel_name date_str entries _ hlt]
    simp [Nat.sub_add_cancel hpos]

/-- Witness for claim C1 at the spec §8 example: date 20260301 with raw
entries 06:00 新闻 and 07:30 天气. -/
theorem stitch_matches_interval_spec_witness :
    ([⟨"06:00", "新闻"⟩, ⟨"07:30", "天气"⟩] ≠ ([] : List RawItem)) ∧
    stitchSpecOk "CCTV1" "20260301" [⟨"06:00", "新闻"⟩, ⟨"07:30", "天气"⟩]
      (stitch "CCTV1" "20260301" [⟨"06:00", "新闻"⟩, ⟨"07:30", "天气"⟩]) :=
  ⟨by decide, stitch_matches_interval_spec "CCTV1" "20260301" _ (by decide)⟩

/-- The `CHANNELS` configuration dict of `tvmao/main.py`: page type mapped
to (display name, TVMao channel id) pairs, in source order. -/
def CHANNELS : List (String × List (String × String)) :=
  [("program",
    [("CCTV1", "CCTV-CCTV1"), ("CCTV2", "CCTV-CCTV2"), ("CCTV3", "CCTV-CCTV3"),
     ("CCTV4", "CCTV-CCTV4"), ("CCTV5", "CCTV-CCTV5"), ("CCTV5+", "CCTV-CCTV5-PLUS"),
     ("CCTV6", "CCTV-CCTV6"), ("CCTV7", "CCTV-CCTV7"), ("CCTV8", "CCTV-CCTV8"),
     ("CCTV9", "CCTV-CCTV9"), ("CCTV10", "CCTV-CCTV10"), ("CCTV11", "CCTV-CCTV11"),
     ("CCTV12", "CCTV-CCTV12"), ("CCTV13", "CCTV-CCTV13"), ("CCTV14", "CCTV-CCTV15"),
     ("CCTV15", "CCTV-CCTV16"), ("CCTV16", "CCTV-CCTVOLY"), ("CCTV17", "CCTV-CCTV17NY"),
     ("风云音乐", "CCTVPAYFEE-CCTVPAYFEE2"), ("第一剧场", "CCTVPAYFEE-CCTVPAYFEE3"),
     ("风云剧场", "CCTVPAYFEE-CCTVPAYFEE4"), ("风云足球", "CCTVPAYFEE-CCTVPAYFEE1"),
     ("世界地理", "CCTVPAYFEE-CCTVPAYFEE5"), ("电视指南", "CCTVPAYFEE-CCTVPAYFEE6"),
     ("怀旧剧场", "CCTVPAYFEE-CCTVPAYFEE7"), ("兵器科技", "CCTVPAYFEE-CCTVPAYFEE8"),
     ("CCTV4K超高清", "CCTVPAYFEE-CCTV4K"), ("CHC动作电影", "CHC-CHC1"),
     ("CHC家庭影院", "CHC-CHC2"), ("CHC影迷电影", "CHC-CHC3"),
     ("辽宁公共", "LNTV-LNTV7"), ("辽宁北方", "LNTV-LNTV8"), ("辽宁生活", "LNTV-LNTV6"),
     ("辽宁经济", "LNTV-LNTV-FINANCE"), ("辽宁都市", "LNTV-LNTV2"),
     ("辽宁影视剧", "LNTV-LNTV3"), ("辽宁体育休闲", "LNTV-LNTV-SPORT")]),
   ("program_satellite",
    [("深圳卫视", "SZTV1"), ("重庆卫视", "CCQTV1"), ("广东卫视", "GDTV1"),
     ("北京卫视", "BTV1"), ("湖南卫视", "HUNANTV1"), ("东方卫视", "DONGFANG1"),
     ("四川卫视", "SCTV1"), ("天津卫视", "TJTV1"), ("安徽卫视", "AHTV1"),
     ("山东卫视", "SDTV1"), ("广西卫视", "GUANXI1"), ("江苏卫视", "JSTV1"),
     ("江西卫视", "JXTV1"), ("河北卫视", "HEBEI1"), ("河南卫视", "HNTV1"),
     ("浙江卫视", "ZJTV1"), ("海南卫视", "TCTC1"), ("湖北卫视", "HUBEI1"),
     ("东南卫视", "FJTV2"), ("贵州卫视", "GUIZOUTV1"), ("云南卫视", "YNTV1"),
     ("辽宁卫视", "LNTV1"), ("黑龙江卫视", "HLJTV1"), ("吉林卫视", "JILIN1"),
     ("宁夏卫视", "NXTV2"), ("新疆卫视", "XJTV1"), ("兵团卫视", "BINGTUAN"),
     ("甘肃卫视", "GSTV1"), ("内蒙古卫视", "NMGTV1"), ("青海卫视", "QHTV1"),
     ("三沙卫视", "SANSHATV"), ("厦门卫视", "XMTV5"), ("陕西卫视", "SHXITV1")])]

/-- URL built in `get_epg_data`:
`f"https://www.tvmao.com/(type)/(channel_id)-w(weekday).html"`. -/
def tvmaoUrl (page_type channel_id : String) (weekday : Nat) : String :=
  "https://www.tvmao.com/" ++ page_type ++ "/" ++ channel_id ++ "-w" ++
    toString weekday ++ ".html"

/-- Per-channel body of the `get_epg_data` loop: when the scrape result is
non-empty (`if epg_data := asyncio.run(scrape(url))`), append the channel
and its stitched programmes; otherwise leave the accumulator unchanged. -/
def tvmaoChannelStep (scrapes : String → List RawItem) (date_str : String)
    (weekday : Nat) (acc : Data) (page_type : String)
    (entry : String × String) : Data :=
  let epg_data := scrapes (tvmaoUrl page_type entry.2 weekday)
  if epg_data = [] then acc
  else
    { acc with
      channels := acc.channels ++ [⟨entry.1, entry.1⟩]
      programmes := acc.programmes ++ stitch entry.1 date_str epg_data }

/-- The channel-iteration loops of `get_epg_data` (lines 204–239), run on an
already-constructed `Data` accumulator.  `scrapes` abstracts
`asyncio.run(scrape(url))` as the list of raw entries each URL yields. -/
def tvmaoFill (scrapes : String → List RawItem) (date_str : String)
    (weekday : Nat) (result : Data) : Data :=
  CHANNELS.foldl
    (fun acc group =>
      group.2.foldl (fun acc2 entry =>
        tvmaoChannelStep scrapes date_str weekday acc2 group.1 entry) acc)
    result

/-- Model of `tvmao.main.get_epg_data`: line 197 constructs `Data()` with no
arguments before any channel is processed; only if that succeeded would the
channel loops run. -/
def get_epg_data (scrapes : String → List RawItem) (date_str : String)
    (weekday : Nat) : Except PyErr Data :=
  (mkData none).map (tvmaoFill scrapes date_str weekday)

/-- Claim C10: `Data()` without `data_from` raises a `ValidationError`
naming `data_from`, and consequently `get_epg_data` raises that error for
every possible scrape outcome and date — it never returns a schedule. -/
theorem get_epg_data_always_raises :
    mkData none = .error (.validationError ["data_from"]) ∧
    ∀ (scrapes : String → List RawItem) (date_str : String) (weekday : Nat),
      get_epg_data scrapes date_str weekday =
        .error (.validationError ["data_from"]) := by
  exact ⟨rfl, fun _ _ _ => rfl⟩

/-- Timestamp shape required by the spec (§6, claim C7): exactly fourteen
digits, then one space, then '+' or '-' and four digits. -/
def tsFormatOk (s : String) : Bool :=
  let l := s.data
  l.length == 20 && (l.take 14).all Char.isDigit && l.getD 14 '0' == ' ' &&
  (l.getD 15 '0' == '+' || l.getD 15 '0' == '-') && (l.drop 16).all Char.isDigit

/-- Claim C7 failing input: the rendered-page pipeline accepts a leading
time token with a single-digit hour (the regex allows one or two hour
digits), and `time.replace(":", "")` then yields only three digits, so the
emitted start string has thirteen digits before the offset instead of
fourteen.  A two-digit hour produces the well-formed shape. -/
theorem single_digit_hour_malformed_timestamp :
    (stitch "CCTV1" "20260301" [⟨"8:00", "早间新闻"⟩]).map Programme.start =
      ["2026030180000 +0800"] ∧
    tsFormatOk "2026030180000 +0800" = false ∧
    (stitch "CCTV1" "20260301" [⟨"08:00", "早间新闻"⟩]).map Programme.start =
      ["20260301080000 +0800"] ∧
    tsFormatOk "20260301080000 +0800" = true := by
  decide

/-- Whitespace class of Python's `re` for `\s` and of `str.strip`,
restricted to the ASCII whitespace characters (the inputs considered here
contain no further Unicode whitespace). -/
def pyIsSpace (c : Char) : Bool :=
  c == ' ' || c == '\t' || c == '\n' || c == '\r' || c == '\x0b' || c == '\x0c'

/-- Auxiliary scan for `re.sub(r"\s+", " ", t)`: a maximal whitespace run
emits exactly one space at its first character (`inRun` tracks whether the
previous character belonged to the same run). -/
def collapseWsAux : Bool → List Char → List Char
  | _, [] => []
  | inRun, c :: rest =>
    if pyIsSpace c then
      if inRun then collapseWsAux true rest
      else ' ' :: collapseWsAux true rest
    else c :: collapseWsAux false rest

/-- Python `re.sub(r"\s+", " ", t)`: collapse every whitespace run to a
single space. -/
def collapseWs (l : List Char) : List Char :=
  collapseWsAux false l

/-- Python `str.strip()`: drop leading and trailing whitespace. -/
def pyStrip (l : List Char) : List Char :=
  ((l.dropWhile pyIsSpace).reverse.dropWhile pyIsSpace).reverse

/-- Leading-token match of `re.match(r"^(\d{1,2}:\d{2})\s*(.*)$", s)`
without the trailing `\s*(.*)` part: the greedy two-digit-hour attempt is
tried first and the regex engine falls back to a one-digit hour exactly
when the next character is a colon.  Returns the matched time token and
the remainder of the string. -/
def timeMatch : List Char → Option (List Char × List Char)
  | c0 :: c1 :: c2 :: c3 :: c4 :: rest =>
    if c0.isDigit && c1.isDigit && c2 == ':' && c3.isDigit && c4.isDigit then
      some ([c0, c1, c2, c3, c4], rest)
    else if c0.isDigit && c1 == ':' && c2.isDigit && c3.isDigit then
      some ([c0, c1, c2, c3], c4 :: rest)
    else none
  | [c0, c1, c2, c3] =>
    if c0.isDigit && c1 == ':' && c2.isDigit && c3.isDigit then
      some ([c0, c1, c2, c3], [])
    else none
  | _ => none

/-- Python `re.fullmatch(r"\d{1,2}:\d{2}", x)` as a Boolean: the whole
string is a one- or two-digit hour, a colon, and two digits. -/
def isTimeToken : List Char → Bool
  | [a, b, c, d] => a.isDigit && b == ':' && c.isDigit && d.isDigit
  | [a, b, c, d, e] => a.isDigit && b.isDigit && c == ':' && d.isDigit && e.isDigit
  | _ => false

/-- Python `re.sub(r"(正在播出)", "", rest)`: delete every occurrence of the
"currently airing" marker phrase (left-to-right, non-overlapping). -/
def stripMarker : List Char → List Char
  | '正' :: '在' :: '播' :: '出' :: rest => stripMarker rest
  | c :: rest => c :: stripMarker rest
  | [] => []

/-- One rendered `li` element as the scraper sees it: `inner_text()` plus
the text contents of its `a`, `span`, `em` descendants (used only by the
empty-remainder fallback). -/
structure LiBlock where
  text : String
  subTexts : List String
  deriving DecidableEq, Repr

/-- The per-`li` text extraction of `tvmao.main.scrape` (lines 154–180):
normalize whitespace, require a leading `H:MM`/`HH:MM` token, take the
remainder as the title (falling back to sub-element texts when empty,
excluding bare time tokens), strip the marker phrase, and discard entries
whose final title is empty. -/
def extractEntry (li : LiBlock) : Option RawItem :=
  let s := pyStrip (collapseWs li.text.data)
  match timeMatch s with
  | none => none
  | some (time_str, after) =>
    let rest1 := pyStrip (after.dropWhile pyIsSpace)
    let rest2 :=
      if rest1 = [] then
        let texts := li.subTexts.map (fun x => pyStrip x.data)
        let texts2 := texts.filter (fun x => !isTimeToken x)
        pyStrip (collapseWs (List.intercalate [' '] texts2))
      else rest1
    let title := pyStrip (stripMarker rest2)
    if title = [] then none else some ⟨⟨time_str⟩, ⟨title⟩⟩

/-- Claim C9: the list-item extraction normalizes whitespace, requires a
leading time token (blocks without one are discarded), strips the
"currently airing" marker, and discards entries with empty stripped
titles; in particular "08:00 正在播出 早间新闻" yields time "08:00" and
title "早间新闻". -/
theorem scrape_text_extraction :
    extractEntry ⟨"08:00 正在播出 早间新闻", []⟩ = some ⟨"08:00", "早间新闻"⟩ ∧
    extractEntry ⟨" 08:00   正在播出" ++ "\t" ++ "早间新闻 ", []⟩ =
      some ⟨"08:00", "早间新闻"⟩ ∧
    (∀ li : LiBlock, timeMatch (pyStrip (collapseWs li.text.data)) = none →
      extractEntry li = none) ∧
    extractEntry ⟨"08:00 正在播出", []⟩ = none ∧
    extractEntry ⟨"早间新闻 08:00", []⟩ = none := by
  refine ⟨by decide, by decide, ?_, by decide, by decide⟩
  intro li hnone
  simp only [extractEntry, hnone]

/-- Witness for claim C9's discard conjunct at a concrete block with no
leading time token. -/
theorem scrape_text_extraction_witness :
    timeMatch (pyStrip (collapseWs ("早间新闻" : String).data)) = none ∧
    extractEntry ⟨"早间新闻", []⟩ = none :=
  ⟨by decide, scrape_text_extraction.2.2.1 ⟨"早间新闻", []⟩ (by decide)⟩

/-- Claim C3 counterexample: a `Programme` whose start does not precede its
stop and whose title is empty is accepted, and a `Data` whose programme
references a channel id absent from its channel list is accepted as well —
`models.py` declares no validators, so no `ValidationError` is raised. -/
theorem programme_invalid_accepted :
    mkProgramme (some "CCTV1") (some "20260101120000 +0800")
        (some "20260101110000 +0800") (some "") =
      .ok ⟨"CCTV1", "20260101120000 +0800", "20260101110000 +0800", ""⟩ ∧
    mkData (some "test") []
        [⟨"GHOST", "20260101120000 +0800", "20260101130000 +0800", "t"⟩] =
      .ok ⟨"by oaixnah", "https://tv.oaix.tech/e.xml", "test", [],
           [⟨"GHOST", "20260101120000 +0800", "20260101130000 +0800", "t"⟩]⟩ :=
  ⟨rfl, rfl⟩

/-- Claim C3 amended: pydantic construction fails with a `ValidationError`
naming the offending fields exactly when required fields are absent; any
call supplying all four string fields succeeds, whatever their values. -/
theorem programme_validation_only_missing_fields :
    (∀ c s st t : String,
      mkProgramme (some c) (some s) (some st) (some t) = .ok ⟨c, s, st, t⟩) ∧
    mkProgramme none (some "s") (some "st") (some "t") =
      .error (.validationError ["channel"]) ∧
    mkProgramme none none none none =
      .error (.validationError ["channel", "start", "stop", "title"]) :=
  ⟨fun _ _ _ _ => rfl, rfl, rfl⟩

/-- The `CHANNEL_NAMES` tuple of `erw-api/main.py`, in source order. -/
def CHANNEL_NAMES : List String :=
  ["CCTV1", "CCTV2", "CCTV3", "CCTV4", "CCTV5", "CCTV5+", "CCTV6", "CCTV7",
   "CCTV8", "CCTV9", "CCTV10", "CCTV11", "CCTV12", "CCTV13", "CCTV14",
   "CCTV15", "CCTV16", "CCTV17", "风云音乐", "第一剧场", "风云剧场", "风云足球",
   "世界地理", "电视指南", "怀旧剧场", "兵器科技", "CCTV4K超高清", "CHC动作电影",
   "CHC家庭影院", "CHC影迷电影", "辽宁公共", "辽宁北方", "辽宁生活", "辽宁经济",
   "辽宁都市", "辽宁影视剧", "辽宁体育休闲", "深圳卫视", "重庆卫视", "广东卫视",
   "北京卫视", "湖南卫视", "东方卫视", "四川卫视", "天津卫视", "安徽卫视",
   "山东卫视", "广西卫视", "江苏卫视", "江西卫视", "河北卫视", "河南卫视",
   "浙江卫视", "海南卫视", "湖北卫视", "东南卫视", "贵州卫视", "云南卫视",
   "辽宁卫视", "黑龙江卫视", "吉林卫视", "宁夏卫视", "新疆卫视", "兵团卫视",
   "甘肃卫视", "内蒙古卫视", "青海卫视", "三沙卫视", "厦门卫视", "陕西卫视"]

/-- One entry of the API's `epg_data` list, with the dict keys `start`,
`end`, `title` (entries are modelled with all three keys present). -/
structure ErwItem where
  start : String
  «end» : String
  title : String
  deriving DecidableEq, Repr

/-- Outcome of `get_epg(channel_name, date)`: `fail` is a transport error,
timeout or non-JSON body (requests' `JSONDecodeError` is a
`RequestException`, so `get_epg` returns `None`); `missingEpgData` is a
JSON body without the `epg_data` key; `ok items` is a payload whose
`epg_data` list holds `items`. -/
inductive ErwResponse
  | fail
  | missingEpgData
  | ok (items : List ErwItem)
  deriving DecidableEq, Repr

/-- Does the response let the loop body run to completion with data? -/
def ErwResponse.hasData : ErwResponse → Bool
  | .ok _ => true
  | _ => false

/-- The `epg_data` items of a response (empty for the other shapes). -/
def ErwResponse.itemsOf : ErwResponse → List ErwItem
  | .ok items => items
  | _ => []

/-- Programmes built from one channel's items (lines 194–200 of
`erw-api/main.py`): start and stop are the date plus the colon-stripped
`start`/`end` times, `00` seconds and the fixed +0800 offset. -/
def erwProgrammes (channel_name date_str : String) (items : List ErwItem) :
    List Programme :=
  items.map (fun i =>
    ⟨channel_name, mkTime date_str i.start, mkTime date_str i.«end», i.title⟩)

/-- The channel loop of `erw-api.main.get_data` (lines 185–200).  On `fail`
(`epg is None`) the channel is skipped; on a payload with `epg_data` the
channel and its programmes are appended; on a payload without the key, the
channel is appended first (line 191) but `epg["epg_data"]` then raises an
uncaught `KeyError`, so the whole call aborts and the accumulated `Data`
is discarded. -/
def get_dataAux (responses : String → ErwResponse) (date_str : String) :
    List String → Data → Except PyErr Data
  | [], acc => .ok acc
  | n :: rest, acc =>
    match responses n with
    | .fail => get_dataAux responses date_str rest acc
    | .missingEpgData => .error (.keyError "epg_data")
    | .ok items =>
      get_dataAux responses date_str rest
        { acc with
          channels := acc.channels ++ [⟨n, n⟩]
          programmes := acc.programmes ++ erwProgrammes n date_str items }

/-- Model of `erw-api.main.get_data`: construct
`Data(data_from='https://api.erw.cc/')`, then run the channel loop over
`CHANNEL_NAMES`. -/
def get_data (responses : String → ErwResponse) (date_str : String) :
    Except PyErr Data :=
  match mkData (some "https://api.erw.cc/") with
  | .error e => .error e
  | .ok d => get_dataAux responses date_str CHANNEL_NAMES d

/-- Every programme built from one channel's items carries that channel's
name in its `channel` field. -/
theorem erwProgrammes_channel (channel_name date_str : String)
    (items : List ErwItem) :
    ∀ p ∈ erwProgrammes channel_name date_str items, p.channel = channel_name := by
  intro p hp
  simp only [erwProgrammes, List.mem_map] at hp
  obtain ⟨i, _, rfl⟩ := hp
  rfl

/-- Inversion of a successful channel loop: the final channels are the
accumulator's followed by one `Channel n n` per responding channel in
configuration order, and the programmes likewise group by channel. -/
theorem get_dataAux_ok_inv (responses : String → ErwResponse) (date_str : String) :
    ∀ (names : List String) (acc d : Data),
      get_dataAux responses date_str names acc = .ok d →
      d.channels = acc.channels ++
        (names.filter (fun n => (responses n).hasData)).map
          (fun n => (⟨n, n⟩ : Channel)) ∧
      d.programmes = acc.programmes ++
        ((names.filter (fun n => (responses n).hasData)).map
          (fun n => erwProgrammes n date_str (responses n).itemsOf)).flatten := by
  intro names
  induction names with
  | nil =>
    intro acc d h
    simp only [get_dataAux, Except.ok.injEq] at h
    simp [← h]
  | cons n rest ih =>
    intro acc d h
    simp only [get_dataAux] at h
    cases hr : responses n with
    | fail =>
      rw [hr] at h
      have hres := ih _ _ h
      simpa [hr, ErwResponse.hasData] using hres
    | missingEpgData =>
      rw [hr] at h
      cases h
    | ok items =>
      rw [hr] at h
      have hres := ih _ _ h
      simp only [List.filter_cons, hr, ErwResponse.hasData, ErwResponse.itemsOf,
        List.map_cons, List.flatten_cons, if_pos] at hres ⊢
      obtain ⟨h1, h2⟩ := hres
      refine ⟨?_, ?_⟩
      · rw [h1]; simp
      · rw [h2]; simp

/-- Upstream responses where CCTV1 answers with an empty `epg_data` list
and every other channel's request fails. -/
def respC2W : String → ErwResponse := fun n =>
  if n = "CCTV1" then .ok [] else .fail

/-- Output of `get_data` under `respC2W`: CCTV1 is present with zero
programmes. -/
def dataC2W : Data :=
  ⟨"by oaixnah", "https://tv.oaix.tech/e.xml", "https://api.erw.cc/",
   [⟨"CCTV1", "CCTV1"⟩], []⟩

/-- Claim C2 counterexample: a channel whose API payload contains no
programme entries (`epg_data` is the empty list) still appears in the
output channel list — `get_data` appends the channel before looking at the
items, so the channel is present with zero programmes rather than absent. -/
theorem erw_empty_payload_channel_present :
    get_data respC2W "20260213" = .ok dataC2W ∧
    dataC2W.channels = [⟨"CCTV1", "CCTV1"⟩] ∧
    dataC2W.programmes = [] :=
  ⟨rfl, rfl, rfl⟩

/-- Every programme emitted by the stitching loop carries the channel name
it was stitched for. -/
theorem stitch_channel_eq (channel_name date_str : String)
    (epg_data : List RawItem) :
    ∀ p ∈ stitch channel_name date_str epg_data, p.channel = channel_name := by
  intro p hp
  simp only [stitch, List.mem_map, List.mem_range] at hp
  obtain ⟨i, _, rfl⟩ := hp
  rfl

/-- Invariance of the inner tvmao channel loop: if every configured id for
display name `ch` in the group scrapes empty, a fold over the group adds no
channel or programme for `ch`. -/
theorem tvmaoFill_inner_inv (scrapes : String → List RawItem)
    (date_str : String) (wd : Nat) (ch : String) (t : String) :
    ∀ (cs : List (String × String)) (acc : Data),
      (∀ cid, (ch, cid) ∈ cs → scrapes (tvmaoUrl t cid wd) = []) →
      (∀ c ∈ acc.channels, c.id ≠ ch) →
      (∀ p ∈ acc.programmes, p.channel ≠ ch) →
      (∀ c ∈ (cs.foldl
          (fun a e => tvmaoChannelStep scrapes date_str wd a t e) acc).channels,
        c.id ≠ ch) ∧
      (∀ p ∈ (cs.foldl
          (fun a e => tvmaoChannelStep scrapes date_str wd a t e) acc).programmes,
        p.channel ≠ ch) := by
  intro cs
  induction cs with
  | nil => intro acc _ h1 h2; exact ⟨h1, h2⟩
  | cons e rest ih =>
    intro acc hcs h1 h2
    simp only [List.foldl_cons]
    refine ih _ (fun cid hm => hcs cid (List.mem_cons_of_mem _ hm)) ?_ ?_
    · intro c hc
      unfold tvmaoChannelStep at hc
      by_cases hempty : scrapes (tvmaoUrl t e.2 wd) = []
      · rw [if_pos hempty] at hc
        exact h1 c hc
      · rw [if_neg hempty] at hc
        simp only [List.mem_append, List.mem_singleton] at hc
        rcases hc with hc | hc
        · exact h1 c hc
        · subst hc
          intro hid
          exact hempty (hcs e.2 (by simp [← hid, Prod.ext_iff]))
    · intro p hp
      unfold tvmaoChannelStep at hp
      by_cases hempty : scrapes (tvmaoUrl t e.2 wd) = []
      · rw [if_pos hempty] at hp
        exact h2 p hp
      · rw [if_neg hempty] at hp
        simp only [List.mem_append] at hp
        rcases hp with hp | hp
        · exact h2 p hp
        · rw [stitch_channel_eq e.1 date_str _ p hp]
          intro hid
          exact hempty (hcs e.2 (by simp [← hid, Prod.ext_iff]))

/-- Invariance of the full tvmao channel iteration: if every configured id
for display name `ch` scrapes empty, `tvmaoFill` adds no channel or
programme for `ch`. -/
theorem tvmaoFill_inv (scrapes : String → List RawItem) (date_str : String)
    (wd : Nat) (ch : String) :
    ∀ (groups : List (String × List (String × String))) (acc : Data),
      (∀ t cs cid, (t, cs) ∈ groups → (ch, cid) ∈ cs →
        scrapes (tvmaoUrl t cid wd) = []) →
      (∀ c ∈ acc.channels, c.id ≠ ch) →
      (∀ p ∈ acc.programmes, p.channel ≠ ch) →
      (∀ c ∈ (groups.foldl
          (fun a g => g.2.foldl
            (fun a2 e => tvmaoChannelStep scrapes date_str wd a2 g.1 e) a)
          acc).channels, c.id ≠ ch) ∧
      (∀ p ∈ (groups.foldl
          (fun a g => g.2.foldl
            (fun a2 e => tvmaoChannelStep scrapes date_str wd a2 g.1 e) a)
          acc).programmes, p.channel ≠ ch) := by
  intro groups
  induction groups with
  | nil => intro acc _ h1 h2; exact ⟨h1, h2⟩
  | cons g rest ih =>
    intro acc hg h1 h2
    simp only [List.foldl_cons]
    have hinner := tvmaoFill_inner_inv scrapes date_str wd ch g.1 g.2 acc
      (fun cid hm => hg g.1 g.2 cid (by simp) hm) h1 h2
    exact ih _ (fun t cs cid hm => hg t cs cid (List.mem_cons_of_mem _ hm))
      hinner.1 hinner.2

/-- Claim C2 amended: the two adapters treat "no data" differently.  For
the API adapter, only a failed request (`get_epg` returning `None`) skips
the channel — part one: a channel whose request failed contributes neither
a channel nor a programme; part two: a channel whose payload has an empty
`epg_data` list IS appended, with zero programmes.  Part three: the
rendered-page loop skips a channel entirely when its scrape result is
empty — it contributes neither a channel entry nor any programme. -/
theorem adapter_no_data_handling_amended :
    (∀ (responses : String → ErwResponse) (date_str : String) (d : Data)
        (ch : String),
      get_data responses date_str = .ok d → responses ch = .fail →
      (∀ c ∈ d.channels, c.id ≠ ch) ∧ (∀ p ∈ d.programmes, p.channel ≠ ch)) ∧
    (∀ (responses : String → ErwResponse) (date_str : String) (d : Data)
        (ch : String),
      get_data responses date_str = .ok d → ch ∈ CHANNEL_NAMES →
      responses ch = .ok [] →
      (⟨ch, ch⟩ : Channel) ∈ d.channels ∧
      ∀ p ∈ d.programmes, p.channel ≠ ch) ∧
    (∀ (scrapes : String → List RawItem) (date_str : String) (wd : Nat)
        (ch : String),
      (∀ t cs cid, (t, cs) ∈ CHANNELS → (ch, cid) ∈ cs →
        scrapes (tvmaoUrl t cid wd) = []) →
      ∀ d0 : Data, (∀ c ∈ d0.channels, c.id ≠ ch) →
        (∀ p ∈ d0.programmes, p.channel ≠ ch) →
        (∀ c ∈ (tvmaoFill scrapes date_str wd d0).channels, c.id ≠ ch) ∧
        (∀ p ∈ (tvmaoFill scrapes date_str wd d0).programmes,
          p.channel ≠ ch)) := by
  refine ⟨?_, ?_, ?_⟩
  · intro responses date_str d ch hok hfail
    have hinv := get_dataAux_ok_inv responses date_str CHANNEL_NAMES _ d hok
    constructor
    · intro c hc
      rw [hinv.1] at hc
      simp only [List.nil_append, List.mem_map, List.mem_filter] at hc
      obtain ⟨n, ⟨_, hn⟩, rfl⟩ := hc
      intro hid
      rw [show (⟨n, n⟩ : Channel).id = n from rfl] at hid
      subst hid
      rw [hfail] at hn
      cases hn
    · intro p hp
      rw [hinv.2] at hp
      simp only [List.nil_append, List.mem_flatten, List.mem_map,
        List.mem_filter] at hp
      obtain ⟨l, ⟨n, ⟨_, hn⟩, rfl⟩, hpl⟩ := hp
      rw [erwProgrammes_channel n date_str _ p hpl]
      intro hid
      subst hid
      rw [hfail] at hn
      cases hn
  · intro responses date_str d ch hok hmem hempty
    have hinv := get_dataAux_ok_inv responses date_str CHANNEL_NAMES _ d hok
    constructor
    · rw [hinv.1]
      simp only [List.nil_append, List.mem_map]
      refine ⟨ch, ?_, rfl⟩
      rw [List.mem_filter]
      exact ⟨hmem, by rw [hempty]; rfl⟩
    · intro p hp
      rw [hinv.2] at hp
      simp only [List.nil_append, List.mem_flatten, List.mem_map,
        List.mem_filter] at hp
      obtain ⟨l, ⟨n, ⟨_, _⟩, rfl⟩, hpl⟩ := hp
      rw [erwProgrammes_channel n date_str _ p hpl]
      intro hid
      subst hid
      rw [hempty] at hpl
      simp [ErwResponse.itemsOf, erwProgrammes] at hpl
  · intro scrapes date_str wd ch hall d0 h1 h2
    exact tvmaoFill_inv scrapes date_str wd ch CHANNELS d0 hall h1 h2

/-- Witness for claim C2's amended theorem: under `respC2W`, channel CCTV2
failed and is absent from the concrete output `dataC2W`. -/
theorem adapter_no_data_handling_amended_witness :
    get_data respC2W "20260213" = .ok dataC2W ∧ respC2W "CCTV2" = .fail ∧
    ((∀ c ∈ dataC2W.channels, c.id ≠ "CCTV2") ∧
     (∀ p ∈ dataC2W.programmes, p.channel ≠ "CCTV2")) :=
  ⟨rfl, rfl,
   adapter_no_data_handling_amended.1 respC2W "20260213" dataC2W "CCTV2" rfl rfl⟩

/-- Upstream responses where CCTV5's JSON body lacks the `epg_data` key and
every other channel answers with one valid programme entry. -/
def respC8W : String → ErwResponse := fun n =>
  if n = "CCTV5" then .missingEpgData
  else .ok [⟨"05:53", "06:27", "新闻联播"⟩]

/-- Claim C8 counterexample: one malformed payload (JSON without
`epg_data`) raises an uncaught `KeyError` that aborts the whole
`get_data` call, although every other channel had data — the run does not
continue past the offending channel. -/
theorem missing_epg_data_aborts_run :
    get_data respC8W "20260213" = .error (.keyError "epg_data") ∧
    respC8W "CCTV1" = .ok [⟨"05:53", "06:27", "新闻联播"⟩] :=
  ⟨rfl, rfl⟩

/-- A channel loop over names none of which has a missing-`epg_data`
payload always finishes with `ok`. -/
theorem get_dataAux_ok_of_no_missing (responses : String → ErwResponse)
    (date_str : String) :
    ∀ (names : List String) (acc : Data),
      (∀ n ∈ names, responses n ≠ .missingEpgData) →
      ∃ d, get_dataAux responses date_str names acc = .ok d := by
  intro names
  induction names with
  | nil => intro acc _; exact ⟨acc, rfl⟩
  | cons n rest ih =>
    intro acc hno
    simp only [get_dataAux]
    cases hr : responses n with
    | fail => exact ih acc (fun m hm => hno m (List.mem_cons_of_mem _ hm))
    | missingEpgData => exact absurd hr (hno n (List.mem_cons_self _ _))
    | ok items => exact ih _ (fun m hm => hno m (List.mem_cons_of_mem _ hm))

/-- A channel loop over names one of which has a missing-`epg_data` payload
always aborts with the `KeyError`. -/
theorem get_dataAux_error_of_missing (responses : String → ErwResponse)
    (date_str : String) :
    ∀ (names : List String) (acc : Data) (n : String),
      n ∈ names → responses n = .missingEpgData →
      get_dataAux responses date_str names acc = .error (.keyError "epg_data") := by
  intro names
  induction names with
  | nil => intro acc n hn; cases hn
  | cons m rest ih =>
    intro acc n hn hmiss
    simp only [get_dataAux]
    cases hr : responses m with
    | fail =>
      rcases List.mem_cons.mp hn with rfl | hn'
      · rw [hr] at hmiss; cases hmiss
      · exact ih acc n hn' hmiss
    | missingEpgData => rfl
    | ok items =>
      rcases List.mem_cons.mp hn with rfl | hn'
      · rw [hr] at hmiss; cases hmiss
      · exact ih _ n hn' hmiss

/-- Claim C8 amended: a transport error or non-JSON body (`get_epg`
returning `None`) is recovered by skipping the channel, and a run whose
payloads all carry `epg_data` completes; but a JSON payload missing the
`epg_data` key raises an uncaught `KeyError` that aborts the entire run. -/
theorem erw_error_recovery_amended :
    (∀ (responses : String → ErwResponse) (date_str : String),
      (∀ n ∈ CHANNEL_NAMES, responses n ≠ .missingEpgData) →
      ∃ d, get_data responses date_str = .ok d) ∧
    (∀ (responses : String → ErwResponse) (date_str : String) (n : String),
      n ∈ CHANNEL_NAMES → responses n = .missingEpgData →
      get_data responses date_str = .error (.keyError "epg_data")) := by
  constructor
  · intro responses date_str hno
    exact get_dataAux_ok_of_no_missing responses date_str CHANNEL_NAMES _ hno
  · intro responses date_str n hn hmiss
    exact get_dataAux_error_of_missing responses date_str CHANNEL_NAMES _ n hn hmiss

/-- Witness for claim C8's amended theorem: an all-failing upstream still
completes with `ok`, and `respC8W` (CCTV5 missing `epg_data`) aborts. -/
theorem erw_error_recovery_amended_witness :
    (∀ n ∈ CHANNEL_NAMES, (fun _ => ErwResponse.fail) n ≠ .missingEpgData) ∧
    (∃ d, get_data (fun _ => ErwResponse.fail) "20260213" = .ok d) ∧
    ("CCTV5" ∈ CHANNEL_NAMES ∧ respC8W "CCTV5" = .missingEpgData) ∧
    get_data respC8W "20260213" = .error (.keyError "epg_data") :=
  ⟨(fun _ _ h => nomatch h),
   erw_error_recovery_amended.1 (fun _ => .fail) "20260213" (fun _ _ h => (nomatch h)),
   ⟨by decide, rfl⟩,
   erw_error_recovery_amended.2 respC8W "20260213" "CCTV5" (by decide) rfl⟩

/-- Escape of one character as performed by minidom `_write_data` on both
attribute values and element text when pretty-printing: `&`, `<`, `"`, `>`
become entities (the chained `str.replace` calls equal this per-character
expansion because no replacement output contains a character replaced by a
later call). -/
def escapeChar (c : Char) : List Char :=
  if c = '&' then "&amp;".data
  else if c = '<' then "&lt;".data
  else if c = '"' then "&quot;".data
  else if c = '>' then "&gt;".data
  else [c]

/-- minidom escaping over a whole value. -/
def escapeXml : List Char → List Char
  | [] => []
  | c :: rest => escapeChar c ++ escapeXml rest

/-- XML line-ending normalization performed by a conforming parser (expat):
a carriage return, alone or followed by a line feed, becomes one line
feed.  It applies to the text content of `save_epg_file`'s intermediate
`parseString` step (ElementTree leaves a literal CR in text) and to any
re-parse of the final document. -/
def eolNorm : List Char → List Char
  | [] => []
  | c :: rest =>
    if c = '\r' then
      match rest with
      | '\n' :: r2 => '\n' :: eolNorm r2
      | r2 => '\n' :: eolNorm r2
    else c :: eolNorm rest

/-- The `display-name` element as pretty-printed by minidom: inline single
text child, or a self-closing element when the name is empty (ElementTree
emits a text node only for a truthy string). -/
def displayNamePrint (name : String) : List Char :=
  if name.data = [] then "<display-name lang=\"zh\"/>\n".data
  else "<display-name lang=\"zh\">".data ++ escapeXml (eolNorm name.data) ++
    "</display-name>\n".data

/-- The `title` element as pretty-printed by minidom (same shape as
`display-name`). -/
def titlePrint (title : String) : List Char :=
  if title.data = [] then "<title lang=\"zh\"/>\n".data
  else "<title lang=\"zh\">".data ++ escapeXml (eolNorm title.data) ++
    "</title>\n".data

/-- One `channel` element of the pretty document (indent one tab, child
indented two tabs). -/
def chanPrint (c : Channel) : List Char :=
  "\t<channel id=\"".data ++ escapeXml c.id.data ++ "\">\n\t\t".data ++
  displayNamePrint c.display_name ++ "\t</channel>\n".data

/-- One `programme` element of the pretty document. -/
def progPrint (p : Programme) : List Char :=
  "\t<programme channel=\"".data ++ escapeXml p.channel.data ++
  "\" start=\"".data ++ escapeXml p.start.data ++
  "\" stop=\"".data ++ escapeXml p.stop.data ++ "\">\n\t\t".data ++
  titlePrint p.title ++ "\t</programme>\n".data

/-- The pretty-printed document written by `save_epg_file`:
`dom.toprettyxml(indent="\t")` output for the tree built from `epg_data` —
the XML declaration, the `tv` root with its three attributes in insertion
order, one `channel` element per channel, one `programme` element per
programme, each as minidom renders them (self-closing root when there are
no children). -/
def prettyDocL (d : Data) : List Char :=
  "<?xml version=\"1.0\" ?>\n<tv info-name=\"".data ++
  escapeXml d.info_name.data ++ "\" info-url=\"".data ++
  escapeXml d.info_url.data ++ "\" data-from=\"".data ++
  escapeXml d.data_from.data ++
  (if d.channels = [] ∧ d.programmes = [] then "\"/>\n".data
   else "\">\n".data ++ (d.channels.map chanPrint).flatten ++
     (d.programmes.map progPrint).flatten ++ "</tv>\n".data)

/-- The pretty document as a string. -/
def prettyDocStr (d : Data) : String :=
  ⟨prettyDocL d⟩

/-- Acceptance by expat: characters allowed by the XML 1.0 character
range (tab, line feed, carriage return, and non-control scalar values). -/
def xmlChar (c : Char) : Bool :=
  c == '\t' || c == '\n' || c == '\r' ||
  (0x20 ≤ c.toNat && c.toNat ≤ 0xD7FF) ||
  (0xE000 ≤ c.toNat && c.toNat ≤ 0xFFFD) ||
  (0x10000 ≤ c.toNat && c.toNat ≤ 0x10FFFF)

/-- All characters of a string are XML characters. -/
def strXmlOk (s : String) : Bool :=
  s.data.all xmlChar

/-- All field strings of a schedule are XML-clean, so the intermediate
`parseString` of `save_epg_file` accepts the ElementTree bytes. -/
def dataXmlOk (d : Data) : Bool :=
  strXmlOk d.info_name && strXmlOk d.info_url && strXmlOk d.data_from &&
  d.channels.all (fun c => strXmlOk c.id && strXmlOk c.display_name) &&
  d.programmes.all (fun p =>
    strXmlOk p.channel && strXmlOk p.start && strXmlOk p.stop && strXmlOk p.title)

/-- The serialization phase of `save_epg_file` (lines 56–61):
`ET.tostring`, `parseString`, `toprettyxml`.  `parseString` rejects
characters outside the XML range (raising before any file is opened); on
acceptance the whole pretty document is materialized in memory. -/
def serializeEpg (d : Data) : Option String :=
  if dataXmlOk d then some (prettyDocStr d) else none

/-- Outcome of the file write: either every character is written, or an
I/O failure interrupts the write after `k` characters. -/
inductive WriteOutcome
  | success
  | failAfter (k : Nat)
  deriving DecidableEq, Repr

/-- Model of `save_epg_file` with the default mode `"w"` acting on the
fixed output path `e.xml` (lines 56–65).  `fsBefore` is the file's prior
content (`none` when absent).  A serialization failure happens before
`open`, leaving the file untouched; otherwise `open("e.xml", "w")`
truncates the destination at once and the document is written in place, a
failure after `k` characters leaving the prefix of the new document.
Returns the resulting file content and whether an exception escaped. -/
def save_epg_file (fsBefore : Option String) (d : Data) (w : WriteOutcome) :
    Option String × Bool :=
  match serializeEpg d with
  | none => (fsBefore, true)
  | some doc =>
    match w with
    | .success => (some doc, false)
    | .failAfter k => (some ⟨doc.data.take k⟩, true)

/-- Empty schedule fixture for the write-atomicity claim. -/
def dataC4W : Data :=
  ⟨"by oaixnah", "https://tv.oaix.tech/e.xml", "test", [], []⟩

/-- Schedule fixture whose title contains U+0000, which expat rejects
during the `parseString` step of serialization. -/
def dataC4Bad : Data :=
  ⟨"by oaixnah", "https://tv.oaix.tech/e.xml", "test", [],
   [⟨"CCTV1", "20260213055300 +0800", "20260213062700 +0800", "\x00"⟩]⟩

/-- Claim C4 counterexample: the write is not all-or-nothing.  The
document serializes fine, but a failure after one character of the write
leaves the file holding just `<` — neither the prior content (absent
file) nor the complete document — because `open("e.xml", "w")` truncates
the destination in place with no temp-file-and-rename step. -/
theorem save_partial_write_left_behind :
    save_epg_file none dataC4W (.failAfter 1) = (some "<", true) ∧
    serializeEpg dataC4W = some (prettyDocStr dataC4W) ∧
    (some "<" : Option String) ≠ none ∧
    "<" ≠ prettyDocStr dataC4W := by
  refine ⟨rfl, rfl, by simp, by decide⟩

/-- Claim C4 amended: the content is fully materialized before the
destination is opened, so a serialization failure leaves the previous
file untouched and a successful run replaces it with the whole document;
but the destination itself is opened with truncation, so an I/O failure
during the write leaves a prefix of the new document behind. -/
theorem save_write_phases_amended :
    (∀ (fsBefore : Option String) (d : Data) (w : WriteOutcome),
      serializeEpg d = none → save_epg_file fsBefore d w = (fsBefore, true)) ∧
    (∀ (fsBefore : Option String) (d : Data) (doc : String),
      serializeEpg d = some doc →
      save_epg_file fsBefore d .success = (some doc, false)) ∧
    (∀ (fsBefore : Option String) (d : Data) (doc : String) (k : Nat),
      serializeEpg d = some doc →
      save_epg_file fsBefore d (.failAfter k) = (some ⟨doc.data.take k⟩, true)) := by
  refine ⟨?_, ?_, ?_⟩
  · intro fsBefore d w h
    simp [save_epg_file, h]
  · intro fsBefore d doc h
    simp [save_epg_file, h]
  · intro fsBefore d doc k h
    simp [save_epg_file, h]

/-- Witness for claim C4's amended theorem: the U+0000 fixture fails
serialization and leaves the old file, the empty-schedule fixture fails
mid-write and leaves a one-character prefix. -/
theorem save_write_phases_amended_witness :
    serializeEpg dataC4Bad = none ∧
    save_epg_file (some "old") dataC4Bad .success = (some "old", true) ∧
    serializeEpg dataC4W = some (prettyDocStr dataC4W) ∧
    save_epg_file none dataC4W (.failAfter 1) =
      (some ⟨(prettyDocStr dataC4W).data.take 1⟩, true) :=
  ⟨rfl,
   save_write_phases_amended.1 (some "old") dataC4Bad .success rfl,
   rfl,
   save_write_phases_amended.2.2 none dataC4W (prettyDocStr dataC4W) 1 rfl⟩

/-- The `__main__` block of `erw-api/main.py` as a function of the
upstream responses and the date: fetch all channels, then serialize; the
run's byte output is the pretty document (or no document when
serialization rejects, or the propagated per-run error). -/
def erwPipelineBytes (responses : String → ErwResponse) (date_str : String) :
    Except PyErr (Option String) :=
  match get_data responses date_str with
  | .error e => .error e
  | .ok d => .ok (serializeEpg d)

/-- Claim C5: serialization and the whole pipeline are deterministic —
equal schedules yield identical pretty documents, and equal upstream
responses with equal dates yield identical byte output.  The embedding is
a pure function of its inputs, mirroring the source: both loops iterate
fixed lists in fixed order, and the serializer walks the schedule in
insertion order with a fixed indent. -/
theorem serialization_deterministic :
    (∀ d1 d2 : Data, d1 = d2 →
      prettyDocStr d1 = prettyDocStr d2 ∧ serializeEpg d1 = serializeEpg d2) ∧
    (∀ (r1 r2 : String → ErwResponse) (t1 t2 : String), r1 = r2 → t1 = t2 →
      erwPipelineBytes r1 t1 = erwPipelineBytes r2 t2) :=
  ⟨fun d1 d2 h => by rw [h]; exact ⟨rfl, rfl⟩,
   fun r1 r2 t1 t2 h1 h2 => by rw [h1, h2]⟩

/-- Witness for claim C5 at a concrete schedule and a concrete upstream. -/
theorem serialization_deterministic_witness :
    prettyDocStr dataC4W = prettyDocStr dataC4W ∧
    erwPipelineBytes (fun _ => ErwResponse.fail) "20260213" =
      erwPipelineBytes (fun _ => ErwResponse.fail) "20260213" :=
  ⟨(serialization_deterministic.1 dataC4W dataC4W rfl).1,
   serialization_deterministic.2 (fun _ => .fail) (fun _ => .fail)
     "20260213" "20260213" rfl rfl⟩

/-- Consume an expected literal prefix of the input, returning the rest. -/
def expects : List Char → List Char → Option (List Char)
  | [], s => some s
  | p :: ps, c :: cs => if c = p then expects ps cs else none
  | _ :: _, [] => none

/-- Characters before the first occurrence of `stop`, and the input after
that occurrence. -/
def takeUntil (stop : Char) : List Char → Option (List Char × List Char)
  | [] => none
  | c :: cs =>
    if c = stop then some ([], cs)
    else
      match takeUntil stop cs with
      | some (v, r) => some (c :: v, r)
      | none => none

/-- Entity decoding of a conforming XML reader, covering the four named
entities the serializer emits. -/
def unescapeXml : List Char → List Char
  | [] => []
  | c :: rest =>
    if c = '&' then
      match rest with
      | 'a' :: 'm' :: 'p' :: ';' :: r2 => '&' :: unescapeXml r2
      | 'l' :: 't' :: ';' :: r2 => '<' :: unescapeXml r2
      | 'q' :: 'u' :: 'o' :: 't' :: ';' :: r2 => '"' :: unescapeXml r2
      | 'g' :: 't' :: ';' :: r2 => '>' :: unescapeXml r2
      | r2 => c :: unescapeXml r2
    else c :: unescapeXml rest

/-- XML attribute-value normalization: after line-ending normalization the
literal whitespace characters left in an attribute value become spaces
(references are unaffected; the serializer emits no entity producing
whitespace). -/
def attrWsNorm (l : List Char) : List Char :=
  l.map (fun c => if c = '\t' || c = '\n' then ' ' else c)

/-- Value a conforming reader recovers from the raw characters between the
quotes of an attribute. -/
def attrVal (raw : List Char) : List Char :=
  unescapeXml (attrWsNorm (eolNorm raw))

/-- Value a conforming reader recovers from the raw characters of element
text. -/
def textVal (raw : List Char) : List Char :=
  unescapeXml (eolNorm raw)

/-- Parse one pretty-printed `channel` element: id attribute and inline
display-name text. -/
def parseChanItem (s : List Char) : Option ((String × String) × List Char) :=
  match expects "\t<channel id=\"".data s with
  | none => none
  | some s1 =>
    match takeUntil '"' s1 with
    | none => none
    | some (rawId, s2) =>
      match expects ">\n\t\t<display-name lang=\"zh\">".data s2 with
      | none => none
      | some s3 =>
        match takeUntil '<' s3 with
        | none => none
        | some (rawName, s4) =>
          match expects "/display-name>\n\t</channel>\n".data s4 with
          | none => none
          | some s5 => some ((⟨attrVal rawId⟩, ⟨textVal rawName⟩), s5)

/-- Parse one pretty-printed `programme` element: channel, start, stop
attributes and inline title text. -/
def parseProgItem (s : List Char) :
    Option ((String × String × String × String) × List Char) :=
  match expects "\t<programme channel=\"".data s with
  | none => none
  | some s1 =>
    match takeUntil '"' s1 with
    | none => none
    | some (rawCh, s2) =>
      match expects " start=\"".data s2 with
      | none => none
      | some s3 =>
        match takeUntil '"' s3 with
        | none => none
        | some (rawStart, s4) =>
          match expects " stop=\"".data s4 with
          | none => none
          | some s5 =>
            match takeUntil '"' s5 with
            | none => none
            | some (rawStop, s6) =>
              match expects ">\n\t\t<title lang=\"zh\">".data s6 with
              | none => none
              | some s7 =>
                match takeUntil '<' s7 with
                | none => none
                | some (rawTitle, s8) =>
                  match expects "/title>\n\t</programme>\n".data s8 with
                  | none => none
                  | some s9 =>
                    some ((⟨attrVal rawCh⟩, ⟨attrVal rawStart⟩,
                           ⟨attrVal rawStop⟩, ⟨textVal rawTitle⟩), s9)

/-- Parse consecutive `channel` elements (fuelled by the input length: each
element consumes at least one character). -/
def parseChanList : Nat → List Char → List (String × String) × List Char
  | 0, s => ([], s)
  | fuel + 1, s =>
    match parseChanItem s with
    | none => ([], s)
    | some (item, rest) =>
      let result := parseChanList fuel rest
      (item :: result.1, result.2)

/-- Parse consecutive `programme` elements. -/
def parseProgList :
    Nat → List Char → List (String × String × String × String) × List Char
  | 0, s => ([], s)
  | fuel + 1, s =>
    match parseProgItem s with
    | none => ([], s)
    | some (item, rest) =>
      let result := parseProgList fuel rest
      (item :: result.1, result.2)

/-- Fields recovered by re-parsing the output document. -/
structure ParsedTv where
  info_name : String
  info_url : String
  data_from : String
  channels : List (String × String)
  programmes : List (String × String × String × String)
  deriving DecidableEq, Repr

/-- Re-parse of the pretty document: XML declaration, the `tv` root's three
attributes, then either a self-closing root or the channel and programme
elements followed by the closing tag at end of input. -/
def parseDoc (doc : List Char) : Option ParsedTv :=
  match expects "<?xml version=\"1.0\" ?>\n<tv info-name=\"".data doc with
  | none => none
  | some s1 =>
    match takeUntil '"' s1 with
    | none => none
    | some (rawInfoName, s2) =>
      match expects " info-url=\"".data s2 with
      | none => none
      | some s3 =>
        match takeUntil '"' s3 with
        | none => none
        | some (rawInfoUrl, s4) =>
          match expects " data-from=\"".data s4 with
          | none => none
          | some s5 =>
            match takeUntil '"' s5 with
            | none => none
            | some (rawDataFrom, s6) =>
              match expects "/>\n".data s6 with
              | some [] =>
                some ⟨⟨attrVal rawInfoName⟩, ⟨attrVal rawInfoUrl⟩,
                      ⟨attrVal rawDataFrom⟩, [], []⟩
              | some (_ :: _) => none
              | none =>
                match expects ">\n".data s6 with
                | none => none
                | some s7 =>
                  let chanResult := parseChanList s7.length s7
                  let progResult := parseProgList chanResult.2.length chanResult.2
                  match expects "</tv>\n".data progResult.2 with
                  | some [] =>
                    some ⟨⟨attrVal rawInfoName⟩, ⟨attrVal rawInfoUrl⟩,
                          ⟨attrVal rawDataFrom⟩, chanResult.1, progResult.1⟩
                  | _ => none

/-- Consuming a literal prefix succeeds and returns the suffix. -/
theorem expects_append (p : List Char) : ∀ s, expects p (p ++ s) = some s := by
  induction p with
  | nil => intro s; rfl
  | cons c cs ih => intro s; simp [expects, ih]

/-- Scanning to a delimiter that does not occur in the value consumes
exactly the value and the delimiter. -/
theorem takeUntil_append (stop : Char) :
    ∀ (v rest : List Char), stop ∉ v →
      takeUntil stop (v ++ stop :: rest) = some (v, rest) := by
  intro v
  induction v with
  | nil => intro rest _; simp [takeUntil]
  | cons c cs ih =>
    intro rest hmem
    have hc : c ≠ stop := fun h => hmem (h ▸ List.mem_cons_self c cs)
    have hcs : stop ∉ cs := fun h => hmem (List.mem_cons_of_mem c h)
    simp [takeUntil, if_neg hc, ih rest hcs]
  
/-- Characters of an escaped value: either a non-special character of the
value itself, or a character of one of the four entities. -/
theorem mem_escapeXml {a : Char} :
    ∀ {v : List Char}, a ∈ escapeXml v →
      (a ∈ v ∧ a ∉ (['&', '<', '"', '>'] : List Char)) ∨
      a ∈ ("&amp;ltquog" : String).data := by
  intro v
  induction v with
  | nil => intro h; cases h
  | cons c cs ih =>
    intro h
    rw [escapeXml, List.mem_append] at h
    rcases h with h | h
    · unfold escapeChar at h
      split_ifs at h with h1 h2 h3 h4
      · right; fin_cases h <;> decide
      · right; fin_cases h <;> decide
      · right; fin_cases h <;> decide
      · right; fin_cases h <;> decide
      · left
        rcases List.mem_singleton.mp h with rfl
        exact ⟨List.mem_cons_self a cs, by simp [h1, h2, h3, h4]⟩
    · rcases ih h with ⟨hm, hs⟩ | hent
      · exact .inl ⟨List.mem_cons_of_mem c hm, hs⟩
      · exact .inr hent

/-- No double quote survives escaping. -/
theorem quot_not_mem_escapeXml (v : List Char) : '"' ∉ escapeXml v := by
  intro h
  rcases mem_escapeXml h with ⟨_, hs⟩ | hent
  · exact hs (by decide)
  · exact absurd hent (by decide)

/-- No angle bracket survives escaping. -/
theorem lt_not_mem_escapeXml (v : List Char) : '<' ∉ escapeXml v := by
  intro h
  rcases mem_escapeXml h with ⟨_, hs⟩ | hent
  · exact hs (by decide)
  · exact absurd hent (by decide)

/-- Escaping introduces no whitespace: a tab, line feed or carriage return
in the escaped value was already in the value. -/
theorem ws_mem_of_mem_escapeXml {a : Char} {v : List Char}
    (hw : a = '\t' ∨ a = '\n' ∨ a = '\r') (h : a ∈ escapeXml v) : a ∈ v := by
  rcases mem_escapeXml h with ⟨hm, _⟩ | hent
  · exact hm
  · rcases hw with rfl | rfl | rfl <;> exact absurd hent (by decide)

/-- Decoding a non-ampersand head character is the character itself. -/
theorem unescapeXml_cons_ne (c : Char) (h : c ≠ '&') (X : List Char) :
    unescapeXml (c :: X) = c :: unescapeXml X := by
  rw [unescapeXml.eq_def]
  simp [h]

/-- Decoding inverts escaping. -/
theorem unescapeXml_escapeXml : ∀ v : List Char, unescapeXml (escapeXml v) = v := by
  intro v
  induction v with
  | nil => rfl
  | cons c cs ih =>
    rw [escapeXml]
    by_cases h1 : c = '&'
    · subst h1
      rw [show escapeChar '&' = ['&', 'a', 'm', 'p', ';'] from rfl]
      show unescapeXml ('&' :: 'a' :: 'm' :: 'p' :: ';' :: escapeXml cs) = _
      rw [show ∀ X, unescapeXml ('&' :: 'a' :: 'm' :: 'p' :: ';' :: X) =
            '&' :: unescapeXml X from fun X => rfl, ih]
    · by_cases h2 : c = '<'
      · subst h2
        rw [show escapeChar '<' = ['&', 'l', 't', ';'] from rfl]
        show unescapeXml ('&' :: 'l' :: 't' :: ';' :: escapeXml cs) = _
        rw [show ∀ X, unescapeXml ('&' :: 'l' :: 't' :: ';' :: X) =
              '<' :: unescapeXml X from fun X => rfl, ih]
      · by_cases h3 : c = '"'
        · subst h3
          rw [show escapeChar '"' = ['&', 'q', 'u', 'o', 't', ';'] from rfl]
          show unescapeXml ('&' :: 'q' :: 'u' :: 'o' :: 't' :: ';' :: escapeXml cs) = _
          rw [show ∀ X, unescapeXml ('&' :: 'q' :: 'u' :: 'o' :: 't' :: ';' :: X) =
                '"' :: unescapeXml X from fun X => rfl, ih]
        · by_cases h4 : c = '>'
          · subst h4
            rw [show escapeChar '>' = ['&', 'g', 't', ';'] from rfl]
            show unescapeXml ('&' :: 'g' :: 't' :: ';' :: escapeXml cs) = _
            rw [show ∀ X, unescapeXml ('&' :: 'g' :: 't' :: ';' :: X) =
                  '>' :: unescapeXml X from fun X => rfl, ih]
          · simp only [escapeChar, if_neg h1, if_neg h2, if_neg h3, if_neg h4,
              List.singleton_append]
            rw [unescapeXml_cons_ne c h1, ih]

/-- Line normalization of a non-carriage-return head character. -/
theorem eolNorm_cons_ne (c : Char) (h : c ≠ '\r') (X : List Char) :
    eolNorm (c :: X) = c :: eolNorm X := by
  rw [eolNorm.eq_def]
  simp [h]

/-- Line normalization leaves carriage-return-free input unchanged. -/
theorem eolNorm_eq_self : ∀ {l : List Char}, '\r' ∉ l → eolNorm l = l := by
  intro l
  induction l with
  | nil => intro _; rfl
  | cons c cs ih =>
    intro h
    have hc : c ≠ '\r' := fun hh => h (hh ▸ List.mem_cons_self c cs)
    rw [eolNorm_cons_ne c hc, ih (fun hh => h (List.mem_cons_of_mem c hh))]

/-- Attribute whitespace normalization leaves tab-free and
line-feed-free input unchanged. -/
theorem attrWsNorm_eq_self :
    ∀ {l : List Char}, (∀ c ∈ l, c ≠ '\t' ∧ c ≠ '\n') → attrWsNorm l = l := by
  intro l
  induction l with
  | nil => intro _; rfl
  | cons c cs ih =>
    intro h
    have hc := h c (List.mem_cons_self c cs)
    unfold attrWsNorm at ih ⊢
    simp only [List.map_cons, List.cons.injEq]
    constructor
    · simp [hc.1, hc.2]
    · exact ih (fun a ha => h a (List.mem_cons_of_mem c ha))

/-- An attribute value without literal whitespace survives the
print-and-reparse cycle exactly. -/
theorem attrVal_escapeXml {v : List Char}
    (h : ∀ c ∈ v, c ≠ '\t' ∧ c ≠ '\n' ∧ c ≠ '\r') :
    attrVal (escapeXml v) = v := by
  unfold attrVal
  have hr : '\r' ∉ escapeXml v := fun hm =>
    (h _ (ws_mem_of_mem_escapeXml (by decide) hm)).2.2 rfl
  have htn : ∀ c ∈ escapeXml v, c ≠ '\t' ∧ c ≠ '\n' := by
    intro c hc
    constructor
    · intro he
      subst he
      exact (h _ (ws_mem_of_mem_escapeXml (by decide) hc)).1 rfl
    · intro he
      subst he
      exact (h _ (ws_mem_of_mem_escapeXml (by decide) hc)).2.1 rfl
  rw [eolNorm_eq_self hr, attrWsNorm_eq_self htn, unescapeXml_escapeXml]

/-- Element text without carriage returns survives the print-and-reparse
cycle exactly. -/
theorem textVal_escapeXml {v : List Char} (h : '\r' ∉ v) :
    textVal (escapeXml v) = v := by
  unfold textVal
  have hr : '\r' ∉ escapeXml v := fun hm =>
    h (ws_mem_of_mem_escapeXml (by decide) hm)
  rw [eolNorm_eq_self hr, unescapeXml_escapeXml]

def attrOk (s : String) : Bool :=
  s.data.all (fun c => xmlChar c && !(c == '\t') && !(c == '\n') && !(c == '\r'))

def textOk (s : String) : Bool :=
  !s.data.isEmpty && s.data.all (fun c => xmlChar c && !(c == '\r'))

theorem attrOk_props {s : String} (h : attrOk s = true) :
    ∀ c ∈ s.data, c ≠ '\t' ∧ c ≠ '\n' ∧ c ≠ '\r' := by
  intro c hc
  simp only [attrOk, List.all_eq_true, Bool.and_eq_true, Bool.not_eq_true',
    beq_eq_false_iff_ne, ne_eq] at h
  have := h c hc
  exact ⟨this.1.1.2, this.1.2, this.2⟩

theorem textOk_props {s : String} (h : textOk s = true) :
    s.data ≠ [] ∧ '\r' ∉ s.data := by
  simp only [textOk, Bool.and_eq_true, Bool.not_eq_true', List.isEmpty_eq_false,
    List.all_eq_true, beq_eq_false_iff_ne, ne_eq] at h
  refine ⟨h.1, fun hm => ?_⟩
  exact (h.2 '\r' hm).2 rfl

theorem parseChanItem_print (c : Channel) (hid : attrOk c.id = true)
    (hname : textOk c.display_name = true) (rest : List Char) :
    parseChanItem (chanPrint c ++ rest) = some ((c.id, c.display_name), rest) := by
  have hprops := attrOk_props hid
  have hnprops := textOk_props hname
  have hne : ¬(c.display_name.data = []) := hnprops.1
  have e1 : chanPrint c ++ rest =
      ("\t<channel id=\"" : String).data ++ (escapeXml c.id.data ++
        ('"' :: ((">\n\t\t<display-name lang=\"zh\">" : String).data ++
          (escapeXml c.display_name.data ++
            ('<' :: (("/display-name>\n\t</channel>\n" : String).data ++ rest)))))) := by
    rw [chanPrint, displayNamePrint, if_neg hne, eolNorm_eq_self hnprops.2]
    simp only [List.append_assoc]
    rw [show ∀ Z : List Char, ("\">\n\t\t" : String).data ++ Z =
          '"' :: ((">\n\t\t" : String).data ++ Z) from fun _ => rfl]
    rw [show ∀ Z : List Char, (">\n\t\t" : String).data ++
          (("<display-name lang=\"zh\">" : String).data ++ Z) =
          (">\n\t\t<display-name lang=\"zh\">" : String).data ++ Z from fun _ => rfl]
    rw [show ∀ Z : List Char, ("</display-name>\n" : String).data ++ Z =
          '<' :: (("/display-name>\n" : String).data ++ Z) from fun _ => rfl]
    rw [show ∀ Z : List Char, ("/display-name>\n" : String).data ++
          (("\t</channel>\n" : String).data ++ Z) =
          ("/display-name>\n\t</channel>\n" : String).data ++ Z from fun _ => rfl]
  rw [e1]
  simp only [parseChanItem, expects_append, takeUntil_append '"' _ _
    (quot_not_mem_escapeXml _), takeUntil_append '<' _ _ (lt_not_mem_escapeXml _)]
  rw [attrVal_escapeXml hprops, textVal_escapeXml hnprops.2]

theorem parseProgItem_print (p : Programme) (hch : attrOk p.channel = true)
    (hst : attrOk p.start = true) (hsp : attrOk p.stop = true)
    (hti : textOk p.title = true) (rest : List Char) :
    parseProgItem (progPrint p ++ rest) =
      some ((p.channel, p.start, p.stop, p.title), rest) := by
  have hchp := attrOk_props hch
  have hstp := attrOk_props hst
  have hspp := attrOk_props hsp
  have htip := textOk_props hti
  have hne : ¬(p.title.data = []) := htip.1
  have e1 : progPrint p ++ rest =
      ("\t<programme channel=\"" : String).data ++ (escapeXml p.channel.data ++
        ('"' :: ((" start=\"" : String).data ++ (escapeXml p.start.data ++
          ('"' :: ((" stop=\"" : String).data ++ (escapeXml p.stop.data ++
            ('"' :: ((">\n\t\t<title lang=\"zh\">" : String).data ++
              (escapeXml p.title.data ++
                ('<' :: (("/title>\n\t</programme>\n" : String).data ++
                  rest)))))))))))) := by
    rw [progPrint, titlePrint, if_neg hne, eolNorm_eq_self htip.2]
    simp only [List.append_assoc]
    rw [show ∀ Z : List Char, ("\" start=\"" : String).data ++ Z =
          '"' :: ((" start=\"" : String).data ++ Z) from fun _ => rfl]
    rw [show ∀ Z : List Char, ("\" stop=\"" : String).data ++ Z =
          '"' :: ((" stop=\"" : String).data ++ Z) from fun _ => rfl]
    rw [show ∀ Z : List Char, ("\">\n\t\t" : String).data ++ Z =
          '"' :: ((">\n\t\t" : String).data ++ Z) from fun _ => rfl]
    rw [show ∀ Z : List Char, (">\n\t\t" : String).data ++
          (("<title lang=\"zh\">" : String).data ++ Z) =
          (">\n\t\t<title lang=\"zh\">" : String).data ++ Z from fun _ => rfl]
    rw [show ∀ Z : List Char, ("</title>\n" : String).data ++ Z =
          '<' :: (("/title>\n" : String).data ++ Z) from fun _ => rfl]
    rw [show ∀ Z : List Char, ("/title>\n" : String).data ++
          (("\t</programme>\n" : String).data ++ Z) =
          ("/title>\n\t</programme>\n" : String).data ++ Z from fun _ => rfl]
  rw [e1]
  simp only [parseProgItem, expects_append, takeUntil_append '"' _ _
    (quot_not_mem_escapeXml _), takeUntil_append '<' _ _ (lt_not_mem_escapeXml _)]
  rw [attrVal_escapeXml hchp, attrVal_escapeXml hstp, attrVal_escapeXml hspp,
    textVal_escapeXml htip.2]

/-- A `channel` opening never matches at a `programme` element. -/
theorem parseChanItem_fail_prog (p : Programme) (X : List Char) :
    parseChanItem (progPrint p ++ X) = none := rfl

/-- A `channel` opening never matches at the closing root tag. -/
theorem parseChanItem_fail_end (X : List Char) :
    parseChanItem (("</tv>\n" : String).data ++ X) = none := rfl

/-- A `programme` opening never matches at the closing root tag. -/
theorem parseProgItem_fail_end (X : List Char) :
    parseProgItem (("</tv>\n" : String).data ++ X) = none := rfl

/-- Parsing consecutive printed `channel` elements consumes exactly them
(provided fuel at least their count and no further match at the rest). -/
theorem parseChanList_print :
    ∀ (cs : List Channel) (rest : List Char) (fuel : Nat),
      (∀ c ∈ cs, attrOk c.id = true ∧ textOk c.display_name = true) →
      cs.length ≤ fuel →
      parseChanItem rest = none →
      parseChanList fuel ((cs.map chanPrint).flatten ++ rest) =
        (cs.map (fun c => (c.id, c.display_name)), rest) := by
  intro cs
  induction cs with
  | nil =>
    intro rest fuel _ _ hfail
    cases fuel with
    | zero => simp [parseChanList]
    | succ n => simp [parseChanList, hfail]
  | cons c cs ih =>
    intro rest fuel hok hlen hfail
    cases fuel with
    | zero => simp at hlen
    | succ n =>
      have hc := hok c (List.mem_cons_self c cs)
      simp only [List.map_cons, List.flatten_cons, List.append_assoc]
      rw [parseChanList, parseChanItem_print c hc.1 hc.2]
      dsimp only
      rw [ih rest n (fun a ha => hok a (List.mem_cons_of_mem c ha))
        (by simpa using hlen) hfail]

/-- Parsing consecutive printed `programme` elements consumes exactly
them. -/
theorem parseProgList_print :
    ∀ (ps : List Programme) (rest : List Char) (fuel : Nat),
      (∀ p ∈ ps, attrOk p.channel = true ∧ attrOk p.start = true ∧
        attrOk p.stop = true ∧ textOk p.title = true) →
      ps.length ≤ fuel →
      parseProgItem rest = none →
      parseProgList fuel ((ps.map progPrint).flatten ++ rest) =
        (ps.map (fun p => (p.channel, p.start, p.stop, p.title)), rest) := by
  intro ps
  induction ps with
  | nil =>
    intro rest fuel _ _ hfail
    cases fuel with
    | zero => simp [parseProgList]
    | succ n => simp [parseProgList, hfail]
  | cons p ps ih =>
    intro rest fuel hok hlen hfail
    cases fuel with
    | zero => simp at hlen
    | succ n =>
      have hp := hok p (List.mem_cons_self p ps)
      simp only [List.map_cons, List.flatten_cons, List.append_assoc]
      rw [parseProgList, parseProgItem_print p hp.1 hp.2.1 hp.2.2.1 hp.2.2.2]
      dsimp only
      rw [ih rest n (fun a ha => hok a (List.mem_cons_of_mem p ha))
        (by simpa using hlen) hfail]

/-- A printed `channel` element is never empty. -/
theorem chanPrint_length_pos (c : Channel) : 0 < (chanPrint c).length := by
  rw [chanPrint]
  simp

/-- A printed `programme` element is never empty. -/
theorem progPrint_length_pos (p : Programme) : 0 < (progPrint p).length := by
  rw [progPrint]
  simp

/-- There are at most as many printed `channel` elements as characters. -/
theorem length_le_chanFlatten (cs : List Channel) :
    cs.length ≤ ((cs.map chanPrint).flatten).length := by
  induction cs with
  | nil => simp
  | cons c cs ih =>
    simp only [List.map_cons, List.flatten_cons, List.length_append,
      List.length_cons]
    have := chanPrint_length_pos c
    omega

/-- There are at most as many printed `programme` elements as characters. -/
theorem length_le_progFlatten (ps : List Programme) :
    ps.length ≤ ((ps.map progPrint).flatten).length := by
  induction ps with
  | nil => simp
  | cons p ps ih =>
    simp only [List.map_cons, List.flatten_cons, List.length_append,
      List.length_cons]
    have := progPrint_length_pos p
    omega

/-- No `channel` element matches ahead of the programme list and closing
tag. -/
theorem parseChanItem_fail_rest (ps : List Programme) :
    parseChanItem ((ps.map progPrint).flatten ++ ("</tv>\n" : String).data) =
      none := by
  cases ps with
  | nil => simpa using parseChanItem_fail_end []
  | cons p ps' =>
    simp only [List.map_cons, List.flatten_cons, List.append_assoc]
    exact parseChanItem_fail_prog p _

/-- Consuming a literal equal to the whole input leaves nothing. -/
theorem expects_self (p : List Char) : expects p p = some [] := by
  have h := expects_append p []
  rwa [List.append_nil] at h

/-- The self-closing root marker never matches when the root has
children. -/
theorem expects_close_fail (X : List Char) :
    expects (['/', '>', '\n'] : List Char) ((['>', '\n'] : List Char) ++ X) = none := rfl

/-- A `programme` opening never matches at the bare closing root tag. -/
theorem parseProgItem_fail_close :
    parseProgItem ("</tv>\n" : String).data = none := rfl

/-- Well-formedness of a schedule's fields for exact round-tripping:
attribute-borne fields (channel ids and programme channel, start, stop)
hold XML characters with no literal tab, line feed or carriage return;
text-borne fields (display names and titles) are non-empty and free of
carriage returns. -/
def dataRoundtripOk (d : Data) : Bool :=
  attrOk d.info_name && attrOk d.info_url && attrOk d.data_from &&
  d.channels.all (fun c => attrOk c.id && textOk c.display_name) &&
  d.programmes.all (fun p =>
    attrOk p.channel && attrOk p.start && attrOk p.stop && textOk p.title)

/-- Claim C6 amended: serializing a Schedule and re-parsing the output
document recovers exactly the channel ids, display names, programme
channel references, start and stop strings, and titles, in order —
provided the fields are round-trip-clean (`dataRoundtripOk`): attribute
values free of literal whitespace controls (which XML attribute-value
normalization would turn into spaces) and non-empty carriage-return-free
texts. -/
theorem roundtrip_wellformed (d : Data) (h : dataRoundtripOk d = true) :
    parseDoc (prettyDocL d) =
      some ⟨d.info_name, d.info_url, d.data_from,
            d.channels.map (fun c => (c.id, c.display_name)),
            d.programmes.map (fun p => (p.channel, p.start, p.stop, p.title))⟩ := by
  simp only [dataRoundtripOk, Bool.and_eq_true, List.all_eq_true] at h
  obtain ⟨⟨⟨⟨hin, hiu⟩, hdf⟩, hch⟩, hpr0⟩ := h
  have hpr : ∀ p ∈ d.programmes, attrOk p.channel = true ∧ attrOk p.start = true ∧
      attrOk p.stop = true ∧ textOk p.title = true := fun p hp =>
    ⟨(hpr0 p hp).1.1.1, (hpr0 p hp).1.1.2, (hpr0 p hp).1.2, (hpr0 p hp).2⟩
  rw [prettyDocL]
  by_cases hemp : d.channels = [] ∧ d.programmes = []
  · rw [if_pos hemp]
    rw [show ("\"/>\n" : String).data = '"' :: ("/>\n" : String).data from rfl]
    simp only [List.append_assoc]
    rw [show ∀ Z : List Char, ("\" info-url=\"" : String).data ++ Z =
          '"' :: ((" info-url=\"" : String).data ++ Z) from fun _ => rfl]
    rw [show ∀ Z : List Char, ("\" data-from=\"" : String).data ++ Z =
          '"' :: ((" data-from=\"" : String).data ++ Z) from fun _ => rfl]
    simp only [parseDoc, expects_append,
      takeUntil_append '"' _ _ (quot_not_mem_escapeXml _), expects_self]
    rw [attrVal_escapeXml (attrOk_props hin), attrVal_escapeXml (attrOk_props hiu),
      attrVal_escapeXml (attrOk_props hdf)]
    simp [hemp.1, hemp.2]
  · rw [if_neg hemp]
    simp only [List.append_assoc]
    rw [show ∀ Z : List Char, ("\" info-url=\"" : String).data ++ Z =
          '"' :: ((" info-url=\"" : String).data ++ Z) from fun _ => rfl]
    rw [show ∀ Z : List Char, ("\" data-from=\"" : String).data ++ Z =
          '"' :: ((" data-from=\"" : String).data ++ Z) from fun _ => rfl]
    rw [show ∀ Z : List Char, ("\">\n" : String).data ++ Z =
          '"' :: ((">\n" : String).data ++ Z) from fun _ => rfl]
    simp only [parseDoc, expects_append,
      takeUntil_append '"' _ _ (quot_not_mem_escapeXml _),
      expects_close_fail]
    rw [parseChanList_print d.channels
      ((d.programmes.map progPrint).flatten ++ ("</tv>\n" : String).data)
      ((d.channels.map chanPrint).flatten ++
        ((d.programmes.map progPrint).flatten ++ ("</tv>\n" : String).data)).length
      hch
      (by simp only [List.length_append]
          have := length_le_chanFlatten d.channels
          omega)
      (parseChanItem_fail_rest d.programmes)]
    dsimp only
    rw [parseProgList_print d.programmes ("</tv>\n" : String).data
      ((d.programmes.map progPrint).flatten ++ ("</tv>\n" : String).data).length
      hpr
      (by simp only [List.length_append]
          have := length_le_progFlatten d.programmes
          omega)
      parseProgItem_fail_close]
    dsimp only
    rw [expects_self]
    rw [attrVal_escapeXml (attrOk_props hin), attrVal_escapeXml (attrOk_props hiu),
      attrVal_escapeXml (attrOk_props hdf)]

/-- Round-trip fixture from the spec §8 example. -/
def dataC6W : Data :=
  ⟨"by oaixnah", "https://tv.oaix.tech/e.xml", "https://api.erw.cc/",
   [⟨"CCTV1", "CCTV1"⟩],
   [⟨"CCTV1", "20260213055300 +0800", "20260213062700 +0800", "新闻联播"⟩]⟩

/-- Witness for claim C6's amended theorem at the spec fixture. -/
theorem roundtrip_wellformed_witness :
    dataRoundtripOk dataC6W = true ∧
    parseDoc (prettyDocL dataC6W) =
      some ⟨"by oaixnah", "https://tv.oaix.tech/e.xml", "https://api.erw.cc/",
            [("CCTV1", "CCTV1")],
            [("CCTV1", "20260213055300 +0800", "20260213062700 +0800",
              "新闻联播")]⟩ :=
  ⟨by decide, by rw [roundtrip_wellformed dataC6W (by decide)]; rfl⟩

/-- Schedule whose channel id contains a literal line feed. -/
def dataC6Bad : Data :=
  ⟨"by oaixnah", "u", "f", [⟨"a" ++ "\n" ++ "b", "x"⟩], []⟩

/-- Claim C6 counterexample: a channel id containing a line feed is
serialized with the line feed literal in the attribute (minidom escapes
only ampersand, angle brackets and quotes), and XML attribute-value
normalization on re-parse turns it into a space: the id comes back as
"a b", not the original. -/
theorem roundtrip_newline_attr_fails :
    parseDoc (prettyDocL dataC6Bad) =
      some ⟨"by oaixnah", "u", "f", [("a b", "x")], []⟩ ∧
    parseDoc (prettyDocL dataC6Bad) ≠
      some ⟨"by oaixnah", "u", "f",
            dataC6Bad.channels.map (fun c => (c.id, c.display_name)),
            dataC6Bad.programmes.map
              (fun p => (p.channel, p.start, p.stop, p.title))⟩ := by
  constructor
  · decide
  · decide
